import Mathlib

/-!
Verification development for the IPC subsystem of the i3 window manager
(src/ipc.c): a shallow embedding of the client registry, the event
broadcaster, the subscription handler, the request dispatcher, the bar-config
query handler and the tree serializer's layout field, together with theorems
about them.

Modelling conventions:
* The `TAILQ` of `ipc_client` structures (`all_clients`) is a `List ipc_client`
  whose head is the oldest (first-inserted) client; `TAILQ_INSERT_TAIL` is
  append at the end, `TAILQ_FOREACH` is recursion from the head.
* A C string is a Lean `String`; `strcasecmp(a, b) == 0` is ASCII
  case-insensitive equality (C-locale `tolower`, which Lean's `Char.toLower`
  matches: it lowercases exactly the ASCII range).
* `ipc_send_message(fd, len, type, payload)` is recorded as a `SentMsg` value;
  functions return the list of messages they sent, in sending order.
* Freeing heap-owned subscription strings is recorded explicitly as data, so
  that the two destruction paths (read-error teardown in
  `ipc_receive_message`, and `ipc_shutdown`) can be compared.
-/

/-- ASCII case-insensitive string equality: the embedding of
`strcasecmp(a, b) == 0` (C locale). `Char.toLower` lowercases exactly the
ASCII uppercase range, matching C-locale `tolower`; it is mapped over the
character sequences of both strings before comparing. -/
def strcasecmpEq (a b : String) : Bool :=
  a.data.map Char.toLower == b.data.map Char.toLower

/-- One IPC client (struct `ipc_client`): its connection file descriptor and
its ordered subscription list (`events` array of `num_events` strings, in
append order). A freshly accepted client (`scalloc` in `ipc_new_client`) has
an empty subscription list. -/
structure ipc_client where
  fd : Nat
  events : List String
deriving DecidableEq, Repr

/-- One framed message handed to `ipc_send_message(fd, length, type, payload)`:
the destination descriptor, the message type word and the payload bytes. -/
structure SentMsg where
  fd : Nat
  msgType : Nat
  payload : String
deriving DecidableEq, Repr

/-- The inner loop of `ipc_send_event` (ipc.c lines 80-85): scan the client's
`events` array; `strcasecmp != 0` means continue, otherwise set
`interested = true` and break. -/
def client_interested : List String → String → Bool
  | [], _ => false
  | e :: rest, event =>
    if strcasecmpEq e event = false then client_interested rest event
    else true

/-- Embedding of `ipc_send_event(event, message_type, payload)`
(ipc.c lines 75-91): walk the registry in order; for each client run the
interest scan; if interested, send one framed `(message_type, payload)`
message to that client's fd. Returns the registry as the traversal leaves it
together with the messages sent, in sending order. -/
def ipc_send_event (clients : List ipc_client) (message_type : Nat)
    (event payload : String) : List ipc_client × List SentMsg :=
  match clients with
  | [] => ([], [])
  | current :: rest =>
    let tail := ipc_send_event rest message_type event payload
    if client_interested current.events event then
      (current :: tail.1, ⟨current.fd, message_type, payload⟩ :: tail.2)
    else
      (current :: tail.1, tail.2)

/-- The interest scan is exactly case-insensitive membership of the event
name in the subscription list. -/
theorem client_interested_eq_any (events : List String) (event : String) :
    client_interested events event = events.any (fun e => strcasecmpEq e event) := by
  induction events with
  | nil => rfl
  | cons e rest ih =>
    simp only [client_interested, List.any_cons]
    by_cases h : strcasecmpEq e event = false
    · simp [h, ih]
    · simp only [Bool.not_eq_false] at h
      simp [h]

/-- `ipc_send_event` leaves the registry it traverses unchanged. -/
theorem ipc_send_event_fst (clients : List ipc_client) (t : Nat)
    (event payload : String) :
    (ipc_send_event clients t event payload).1 = clients := by
  induction clients with
  | nil => rfl
  | cons c rest ih =>
    simp only [ipc_send_event]
    by_cases h : client_interested c.events event
    · simp [h, ih]
    · simp [h, ih]

/-- Characterization of the messages `ipc_send_event` sends: one per
interested client, in registry order. -/
theorem ipc_send_event_snd (clients : List ipc_client) (t : Nat)
    (event payload : String) :
    (ipc_send_event clients t event payload).2 =
      (clients.filter (fun c => client_interested c.events event)).map
        (fun c => ⟨c.fd, t, payload⟩) := by
  induction clients with
  | nil => rfl
  | cons c rest ih =>
    simp only [ipc_send_event, List.filter_cons]
    by_cases h : client_interested c.events event
    · simp [h, ih]
    · simp [h, ih]

/-- Every message sent by `ipc_send_event` goes to the fd of some client in
the registry. -/
theorem ipc_send_event_fd_mem (clients : List ipc_client) (t : Nat)
    (event payload : String) (m : SentMsg)
    (hm : m ∈ (ipc_send_event clients t event payload).2) :
    m.fd ∈ clients.map (fun c => c.fd) := by
  rw [ipc_send_event_snd] at hm
  rcases List.mem_map.mp hm with ⟨c, hc, rfl⟩
  exact List.mem_map.mpr ⟨c, List.mem_of_mem_filter hc, rfl⟩

/-- Embedding of the accept path of `ipc_new_client` (ipc.c lines 886-912):
after `accept` succeeds the new client structure is `scalloc`ed (so its
subscription list is empty) and inserted at the tail of `all_clients` by
`TAILQ_INSERT_TAIL`. -/
def ipc_new_client (clients : List ipc_client) (client_fd : Nat) :
    List ipc_client :=
  clients ++ [⟨client_fd, []⟩]

/-- Embedding of the teardown branch of `ipc_receive_message`
(ipc.c lines 840-868), entered on EOF or a read error other than `EAGAIN`:
walk the registry, skip clients whose fd differs, and for the first client
with the matching fd free each of its subscription strings, remove it from
the registry and break. Returns the registry afterwards together with the
list of subscription strings that were freed. -/
def ipc_disconnect (clients : List ipc_client) (dead_fd : Nat) :
    List ipc_client × List String :=
  match clients with
  | [] => ([], [])
  | current :: rest =>
    if current.fd == dead_fd then (rest, current.events)
    else
      let tail := ipc_disconnect rest dead_fd
      (current :: tail.1, tail.2)

/-- The per-client effect of one `ipc_shutdown` loop iteration
(ipc.c lines 100-106): `shutdown(fd)`, `close(fd)`, `TAILQ_REMOVE`,
`free(current)`. `freedEventStrings` records which of the client's
subscription strings the iteration freed — the loop body frees only the
client structure itself, never the `events` array entries. -/
structure ShutdownAction where
  fd : Nat
  freedEventStrings : List String
deriving DecidableEq, Repr

/-- Embedding of `ipc_shutdown` (ipc.c lines 98-107): while the registry is
non-empty, take its first client, close its socket, remove it and free the
structure. Returns the registry afterwards, the per-client actions in order,
and the messages sent during shutdown (the loop calls no send function, so
that list is built empty). -/
def ipc_shutdown (clients : List ipc_client) :
    List ipc_client × List ShutdownAction × List SentMsg :=
  match clients with
  | [] => ([], [], [])
  | current :: rest =>
    let tail := ipc_shutdown rest
    (tail.1, ⟨current.fd, []⟩ :: tail.2.1, tail.2.2)

/-- Outcome of running the yajl parser over a SUBSCRIBE payload with only the
`yajl_string` callback installed (`handle_subscribe` sets
`callbacks.yajl_string = add_subscription` and nothing else, ipc.c lines
788-789): `strings` is the sequence of JSON string values for which the
callback fired before the parse completed or failed, in document order, and
`ok` tells whether `yajl_parse` returned `yajl_status_ok`. -/
structure ParseTrace where
  strings : List String
  ok : Bool
deriving DecidableEq, Repr

/-- The reply payload for a failed SUBSCRIBE (ipc.c line 800). -/
def replySuccessFalse : String := "\x7b\"success\":false\x7d"

/-- The reply payload for a successful SUBSCRIBE (ipc.c line 806). -/
def replySuccessTrue : String := "\x7b\"success\":true\x7d"

/-- Modelled from the spec: the numeric reply type code used for SUBSCRIBE
replies (`I3_IPC_REPLY_TYPE_SUBSCRIBE` lives in a protocol header outside
src/). The spec only requires a fixed code; no claim depends on its value. -/
def I3_IPC_REPLY_TYPE_SUBSCRIBE : Nat := 2

/-- The registry lookup at the top of `handle_subscribe` (ipc.c lines
774-780): the first client whose fd equals the requesting connection's fd. -/
def findClient (clients : List ipc_client) (fd : Nat) : Option ipc_client :=
  match clients with
  | [] => none
  | current :: rest =>
    if current.fd == fd then some current else findClient rest fd

/-- The cumulative effect on the registry of the `add_subscription` string
callback (ipc.c lines 740-760) firing once per parsed string: each call
appends one verbatim copy of the string to the requesting client's `events`
array, growing it by one entry, with no deduplication. The client mutated is
the one `handle_subscribe` looked up by fd. -/
def appendSubscriptions (clients : List ipc_client) (fd : Nat)
    (strs : List String) : List ipc_client :=
  match clients with
  | [] => []
  | current :: rest =>
    if current.fd == fd then
      { current with events := current.events ++ strs } :: rest
    else current :: appendSubscriptions rest fd strs

/-- Embedding of `handle_subscribe` (ipc.c lines 767-808): look up the
requesting client by fd (if absent, log and return with no reply); run the
yajl parser, whose string callback appends each parsed string to that
client's subscription list as it fires; if the parse failed, reply
`{"success":false}` leaving the already-appended names in place; otherwise
reply `{"success":true}`. -/
def handle_subscribe (clients : List ipc_client) (fd : Nat)
    (trace : ParseTrace) : List ipc_client × List SentMsg :=
  match findClient clients fd with
  | none => (clients, [])
  | some _ =>
    (appendSubscriptions clients fd trace.strings,
     [⟨fd, I3_IPC_REPLY_TYPE_SUBSCRIBE,
       if trace.ok then replySuccessTrue else replySuccessFalse⟩])

/-- A JSON document, used to describe well-formed SUBSCRIBE payloads and the
replies the yajl generator builds. -/
inductive Json where
  | null : Json
  | bool (b : Bool) : Json
  | num (n : Int) : Json
  | str (s : String) : Json
  | arr (items : List Json) : Json
  | obj (fields : List (String × Json)) : Json
deriving Repr

mutual

/-- The JSON string values of a document, in document order. Object keys are
not included: yajl reports them through the separate `yajl_map_key` callback,
which `handle_subscribe` leaves unset. -/
def jsonStrings : Json → List String
  | .null => []
  | .bool _ => []
  | .num _ => []
  | .str s => [s]
  | .arr items => jsonStringsArr items
  | .obj fields => jsonStringsObj fields

/-- String values of a list of JSON documents, in order. -/
def jsonStringsArr : List Json → List String
  | [] => []
  | j :: rest => jsonStrings j ++ jsonStringsArr rest

/-- String values of the field values of a JSON object, in order. -/
def jsonStringsObj : List (String × Json) → List String
  | [] => []
  | (_, j) :: rest => jsonStrings j ++ jsonStringsObj rest

end

/-- Modelled from the yajl API: parsing a well-formed JSON document succeeds
(`yajl_status_ok`) and fires the `yajl_string` callback exactly once per
string value, in document order. yajl (the version this code builds against)
accepts any JSON value at the top level, including a bare string. -/
def traceOfJson (j : Json) : ParseTrace :=
  ⟨jsonStrings j, true⟩

/-- The request handlers, identified by name; each constructor stands for one
entry of the `handlers` table (ipc.c lines 812-821). -/
inductive HandlerId where
  | handle_command
  | handle_get_workspaces
  | handle_subscribe
  | handle_get_outputs
  | handle_tree
  | handle_get_marks
  | handle_get_bar_config
  | handle_get_version
deriving DecidableEq, Repr

/-- The dispatch table `handler_t handlers[8]` (ipc.c lines 812-821): the
index of each entry is the numeric value of the request message type. -/
def handlers : List HandlerId :=
  [.handle_command, .handle_get_workspaces, .handle_subscribe,
   .handle_get_outputs, .handle_tree, .handle_get_marks,
   .handle_get_bar_config, .handle_get_version]

/-- The dispatch step at the bottom of `ipc_receive_message` (ipc.c lines
871-876): if `message_type >= sizeof(handlers)/sizeof(handler_t)` the message
is only logged (no handler runs, nothing is sent, the registry is untouched);
otherwise `handlers[message_type]` is invoked. Returns the registry as the
step leaves it, the messages the step itself sent, and the handler selected
to run, if any. -/
def dispatchMessage (clients : List ipc_client) (message_type : Nat) :
    List ipc_client × List SentMsg × Option HandlerId :=
  if message_type ≥ handlers.length then (clients, [], none)
  else (clients, [], handlers[message_type]?)

/-- Bar mode (`config->mode`): dock, hide or invisible. -/
inductive BarMode where
  | M_DOCK
  | M_HIDE
  | M_INVISIBLE
deriving DecidableEq, Repr

/-- Bar hidden state (`config->hidden_state`). -/
inductive BarHiddenState where
  | S_HIDE
  | S_SHOW
deriving DecidableEq, Repr

/-- Bar modifier key (`config->modifier`). -/
inductive BarModifier where
  | M_CONTROL
  | M_SHIFT
  | M_MOD1
  | M_MOD2
  | M_MOD3
  | M_MOD4
  | M_MOD5
deriving DecidableEq, Repr

/-- Bar position (`config->position`). -/
inductive BarPosition where
  | P_TOP
  | P_BOTTOM
deriving DecidableEq, Repr

/-- The optional color strings of a bar configuration (`config->colors`);
`none` models a NULL pointer, for which `YSTR_IF_SET` emits nothing. -/
structure BarColors where
  background : Option String
  statusline : Option String
  separator : Option String
  focused_workspace_border : Option String
  focused_workspace_bg : Option String
  focused_workspace_text : Option String
  active_workspace_border : Option String
  active_workspace_bg : Option String
  active_workspace_text : Option String
  inactive_workspace_border : Option String
  inactive_workspace_bg : Option String
  inactive_workspace_text : Option String
  urgent_workspace_border : Option String
  urgent_workspace_bg : Option String
  urgent_workspace_text : Option String
deriving DecidableEq, Repr

/-- One bar configuration (`Barconfig`); `outputs` carries the
`outputs`/`num_outputs` pair as a list, and `Option String` fields model
possibly-NULL string pointers. -/
structure Barconfig where
  id : String
  outputs : List String
  tray_output : Option String
  socket_path : Option String
  mode : BarMode
  hidden_state : BarHiddenState
  modifier : BarModifier
  position : BarPosition
  status_command : Option String
  font : Option String
  hide_workspace_buttons : Bool
  hide_binding_mode_indicator : Bool
  verbose : Bool
  colors : BarColors
deriving DecidableEq, Repr

/-- The `YSTR_IF_SET` macro (ipc.c lines 612-618): emit the field only when
the string pointer is non-NULL. -/
def ystrIfSet (name : String) (v : Option String) : List (String × Json) :=
  match v with
  | some s => [(name, .str s)]
  | none => []

/-- The `colors` sub-object emitted for a found bar configuration
(ipc.c lines 704-721): one entry per non-NULL color, in source order. -/
def dumpBarColors (c : BarColors) : List (String × Json) :=
  ystrIfSet "background" c.background ++
  ystrIfSet "statusline" c.statusline ++
  ystrIfSet "separator" c.separator ++
  ystrIfSet "focused_workspace_border" c.focused_workspace_border ++
  ystrIfSet "focused_workspace_bg" c.focused_workspace_bg ++
  ystrIfSet "focused_workspace_text" c.focused_workspace_text ++
  ystrIfSet "active_workspace_border" c.active_workspace_border ++
  ystrIfSet "active_workspace_bg" c.active_workspace_bg ++
  ystrIfSet "active_workspace_text" c.active_workspace_text ++
  ystrIfSet "inactive_workspace_border" c.inactive_workspace_border ++
  ystrIfSet "inactive_workspace_bg" c.inactive_workspace_bg ++
  ystrIfSet "inactive_workspace_text" c.inactive_workspace_text ++
  ystrIfSet "urgent_workspace_border" c.urgent_workspace_border ++
  ystrIfSet "urgent_workspace_bg" c.urgent_workspace_bg ++
  ystrIfSet "urgent_workspace_text" c.urgent_workspace_text

/-- The token for `config->mode` (ipc.c lines 623-635); `M_DOCK` shares the
`default` branch. -/
def barModeStr : BarMode → String
  | .M_HIDE => "hide"
  | .M_INVISIBLE => "invisible"
  | .M_DOCK => "dock"

/-- The token for `config->hidden_state` (ipc.c lines 637-646); `S_HIDE`
shares the `default` branch. -/
def barHiddenStateStr : BarHiddenState → String
  | .S_SHOW => "show"
  | .S_HIDE => "hide"

/-- The token for `config->modifier` (ipc.c lines 648-676); the `M_MOD4` case
is commented out in the source, so it falls to the `default` branch, which
also yields "Mod4". -/
def barModifierStr : BarModifier → String
  | .M_CONTROL => "ctrl"
  | .M_SHIFT => "shift"
  | .M_MOD1 => "Mod1"
  | .M_MOD2 => "Mod2"
  | .M_MOD3 => "Mod3"
  | .M_MOD5 => "Mod5"
  | .M_MOD4 => "Mod4"

/-- The object body emitted for a found bar configuration (ipc.c lines
600-724), fields in source order. -/
def dumpBarconfig (config : Barconfig) : List (String × Json) :=
  [("id", .str config.id)] ++
  (if 0 < config.outputs.length then
     [("outputs", .arr (config.outputs.map .str))]
   else []) ++
  ystrIfSet "tray_output" config.tray_output ++
  ystrIfSet "socket_path" config.socket_path ++
  [("mode", .str (barModeStr config.mode)),
   ("hidden_state", .str (barHiddenStateStr config.hidden_state)),
   ("modifier", .str (barModifierStr config.modifier)),
   ("position", .str (if config.position = .P_BOTTOM then "bottom" else "top"))] ++
  ystrIfSet "status_command" config.status_command ++
  ystrIfSet "font" config.font ++
  [("workspace_buttons", .bool (!config.hide_workspace_buttons)),
   ("binding_mode_indicator", .bool (!config.hide_binding_mode_indicator)),
   ("verbose", .bool config.verbose),
   ("colors", .obj (dumpBarColors config.colors))]

/-- The lookup loop of `handle_get_bar_config` (ipc.c lines 584-591): the
first configuration whose id compares `strcmp`-equal to the requested id. -/
def findBarconfig (configs : List Barconfig) (bar_id : String) :
    Option Barconfig :=
  match configs with
  | [] => none
  | current :: rest =>
    if current.id == bar_id then some current else findBarconfig rest bar_id

/-- Embedding of `handle_get_bar_config` (ipc.c lines 558-734): with an empty
payload (`message_size == 0`), reply with a JSON array of every known
configuration id, in registry order; otherwise look the id up — if no
configuration matches, reply with the object whose only field is `id: null`
(ipc.c lines 595-599), else dump the found configuration. -/
def handle_get_bar_config (barconfigs : List Barconfig) (message : String) :
    Json :=
  if message = "" then
    .arr (barconfigs.map (fun c => .str c.id))
  else
    match findBarconfig barconfigs message with
    | none => .obj [("id", .null)]
    | some config => .obj (dumpBarconfig config)

/-- Container layout values (`con->layout`). -/
inductive Layout where
  | L_DEFAULT
  | L_SPLITV
  | L_SPLITH
  | L_STACKED
  | L_TABBED
  | L_DOCKAREA
  | L_OUTPUT
deriving DecidableEq, Repr

/-- The `layout` field fragment of `dump_node` (ipc.c lines 197-221): each
recognized layout serializes to its fixed token; `L_DEFAULT` logs "this is a
bug in the code" and fails `assert(false)`, modelled as `none` — no token is
ever produced for it. -/
def dump_node_layout : Layout → Option String
  | .L_DEFAULT => none
  | .L_SPLITV => some "splitv"
  | .L_SPLITH => some "splith"
  | .L_STACKED => some "stacked"
  | .L_TABBED => some "tabbed"
  | .L_DOCKAREA => some "dockarea"
  | .L_OUTPUT => some "output"

/-- Unfolding equation for `ipc_send_event` on a non-empty registry. -/
theorem ipc_send_event_cons (a : ipc_client) (rest : List ipc_client)
    (t : Nat) (event payload : String) :
    ipc_send_event (a :: rest) t event payload =
      (a :: (ipc_send_event rest t event payload).1,
       if client_interested a.events event then
         ⟨a.fd, t, payload⟩ :: (ipc_send_event rest t event payload).2
       else (ipc_send_event rest t event payload).2) := by
  by_cases h : client_interested a.events event <;>
    simp [ipc_send_event, h]

/-- No message from `ipc_send_event` targets an fd absent from the registry. -/
theorem ipc_send_event_filter_absent (clients : List ipc_client) (t : Nat)
    (event payload : String) (fd : Nat)
    (hfd : fd ∉ clients.map (fun c => c.fd)) :
    ((ipc_send_event clients t event payload).2.filter
      (fun m => m.fd == fd)) = [] := by
  rw [List.filter_eq_nil_iff]
  intro m hm
  have hmem := ipc_send_event_fd_mem clients t event payload m hm
  simp only [beq_iff_eq]
  intro heq
  exact hfd (heq ▸ hmem)

/-- Per-client delivery count for `ipc_send_event`: when registered fds are
distinct, a registered client receives one message when interested and none
otherwise. -/
theorem ipc_send_event_count (t : Nat) (event payload : String)
    (c : ipc_client) :
    ∀ reg : List ipc_client, (reg.map (fun x => x.fd)).Nodup → c ∈ reg →
      (((ipc_send_event reg t event payload).2).filter
          (fun m => m.fd == c.fd)).length =
        (if c.events.any (fun n => strcasecmpEq n event) then 1 else 0) := by
  intro reg
  induction reg with
  | nil => intro _ hc; cases hc
  | cons a rest ih =>
    intro hnodup hc
    rw [List.map_cons, List.nodup_cons] at hnodup
    obtain ⟨ha, hrest⟩ := hnodup
    rw [ipc_send_event_cons]
    rcases List.mem_cons.mp hc with rfl | hc2
    · by_cases hint : client_interested c.events event
      · simp [hint, List.filter_cons,
          ipc_send_event_filter_absent rest t event payload c.fd ha,
          ← client_interested_eq_any]
      · simp [hint,
          ipc_send_event_filter_absent rest t event payload c.fd ha,
          ← client_interested_eq_any]
    · have hfd : (a.fd == c.fd) = false := by
        simp only [beq_eq_false_iff_ne, ne_eq]
        intro heq
        exact ha (heq ▸ List.mem_map.mpr ⟨c, hc2, rfl⟩)
      by_cases hint : client_interested a.events event
      · simp only [hint, if_true, List.filter_cons, hfd]
        exact ih hrest hc2
      · simp only [hint, if_false, Bool.false_eq_true]
        exact ih hrest hc2

/-- Claim C1: for every registry state, `ipc_send_event` sends exactly one
framed `(eventTypeCode, payload)` message to each registered client whose
subscription list contains the event name under case-insensitive exact match
— duplicate entries in the list do not cause duplicate delivery — and no
message to a client with no case-insensitively matching entry; the full
message sequence is one `(fd, type, payload)` triple per interested client. -/
theorem claim_C1_publish_exactly_once (reg : List ipc_client) (t : Nat)
    (event payload : String) (c : ipc_client)
    (hnodup : (reg.map (fun x => x.fd)).Nodup) (hc : c ∈ reg) :
    (((ipc_send_event reg t event payload).2).filter
        (fun m => m.fd == c.fd)).length =
      (if c.events.any (fun n => strcasecmpEq n event) then 1 else 0) ∧
    (ipc_send_event reg t event payload).2 =
      (reg.filter (fun x => x.events.any (fun n => strcasecmpEq n event))).map
        (fun x => ⟨x.fd, t, payload⟩) := by
  refine ⟨ipc_send_event_count t event payload c reg hnodup hc, ?_⟩
  rw [ipc_send_event_snd]
  congr 1
  exact List.filter_congr fun x _ => client_interested_eq_any x.events event

/-- Claim C1 witness: a registry where one client holds a duplicate
case-variant subscription and another holds none. -/
theorem claim_C1_witness :
    (((ipc_send_event
        [⟨1, ["Workspace", "workspace"]⟩, ⟨2, ["output"]⟩]
        3 "workspace" "pay").2).filter (fun m => m.fd == 1)).length =
      (if (["Workspace", "workspace"] : List String).any
          (fun n => strcasecmpEq n "workspace") then 1 else 0) ∧
    (ipc_send_event [⟨1, ["Workspace", "workspace"]⟩, ⟨2, ["output"]⟩]
        3 "workspace" "pay").2 =
      (([⟨1, ["Workspace", "workspace"]⟩, ⟨2, ["output"]⟩] :
          List ipc_client).filter
        (fun x => x.events.any (fun n => strcasecmpEq n "workspace"))).map
        (fun x => ⟨x.fd, 3, "pay"⟩) :=
  claim_C1_publish_exactly_once
    [⟨1, ["Workspace", "workspace"]⟩, ⟨2, ["output"]⟩] 3 "workspace" "pay"
    ⟨1, ["Workspace", "workspace"]⟩ (by decide) (by decide)

/-- Claim C10: `ipc_send_event` is read-only on the registry — after the
call the registry holds exactly the same clients, in the same order, with
unchanged subscription lists. -/
theorem claim_C10_publish_readonly (reg : List ipc_client) (t : Nat)
    (event payload : String) :
    (ipc_send_event reg t event payload).1 = reg :=
  ipc_send_event_fst reg t event payload

/-- Claim C4: client insertion appends at the registry tail with an empty
subscription list, and when every registered client is subscribed to the
published event, `ipc_send_event` sends to the clients exactly in registry
(insertion) order. -/
theorem claim_C4_insertion_and_order (reg : List ipc_client) (new_fd : Nat)
    (t : Nat) (event payload : String)
    (hall : ∀ c ∈ reg, client_interested c.events event = true) :
    ipc_new_client reg new_fd = reg ++ [⟨new_fd, []⟩] ∧
    (ipc_send_event reg t event payload).2 =
      reg.map (fun c => ⟨c.fd, t, payload⟩) := by
  refine ⟨rfl, ?_⟩
  rw [ipc_send_event_snd, List.filter_eq_self.mpr hall]

/-- Claim C4 witness: three clients connected in order 1, 2, 3, all
subscribed to "workspace", receive the broadcast in exactly that order. -/
theorem claim_C4_witness :
    ipc_new_client [⟨1, ["workspace"]⟩, ⟨2, ["Workspace"]⟩] 3 =
      [⟨1, ["workspace"]⟩, ⟨2, ["Workspace"]⟩, ⟨3, []⟩] ∧
    (ipc_send_event
      [⟨1, ["workspace"]⟩, ⟨2, ["Workspace"]⟩, ⟨3, ["x", "workspace"]⟩]
      5 "workspace" "pp").2 =
      [⟨1, 5, "pp"⟩, ⟨2, 5, "pp"⟩, ⟨3, 5, "pp"⟩] := by
  refine ⟨(claim_C4_insertion_and_order [⟨1, ["workspace"]⟩, ⟨2, ["Workspace"]⟩]
    3 5 "workspace" "pp" (by decide)).1, ?_⟩
  have h := (claim_C4_insertion_and_order
    [⟨1, ["workspace"]⟩, ⟨2, ["Workspace"]⟩, ⟨3, ["x", "workspace"]⟩]
    0 5 "workspace" "pp" (by decide)).2
  simpa using h

/-- The `handle_subscribe` registry lookup finds the client with the
requested fd when the clients before it hold other fds. -/
theorem findClient_append (pre post : List ipc_client) (cl : ipc_client)
    (fd : Nat) (hpre : ∀ c ∈ pre, c.fd ≠ fd) (hcl : cl.fd = fd) :
    findClient (pre ++ cl :: post) fd = some cl := by
  induction pre with
  | nil => simp [findClient, hcl]
  | cons a rest ih =>
    have ha : (a.fd == fd) = false := by
      simp only [beq_eq_false_iff_ne, ne_eq]
      exact hpre a (List.mem_cons_self a rest)
    simp only [List.cons_append, findClient, ha, Bool.false_eq_true, if_false]
    exact ih fun c hc => hpre c (List.mem_cons_of_mem a hc)

/-- `appendSubscriptions` touches only the first client with the requested
fd: it appends the parsed strings to that client's list and leaves every
other client untouched. -/
theorem appendSubscriptions_append (pre post : List ipc_client)
    (cl : ipc_client) (fd : Nat) (strs : List String)
    (hpre : ∀ c ∈ pre, c.fd ≠ fd) (hcl : cl.fd = fd) :
    appendSubscriptions (pre ++ cl :: post) fd strs =
      pre ++ { cl with events := cl.events ++ strs } :: post := by
  induction pre with
  | nil => simp [appendSubscriptions, hcl]
  | cons a rest ih =>
    have ha : (a.fd == fd) = false := by
      simp only [beq_eq_false_iff_ne, ne_eq]
      exact hpre a (List.mem_cons_self a rest)
    simp only [List.cons_append, appendSubscriptions, ha, Bool.false_eq_true,
      if_false]
    exact congrArg (fun l => a :: l)
      (ih fun c hc => hpre c (List.mem_cons_of_mem a hc))

/-- The teardown of `ipc_receive_message` removes exactly the first client
holding the dead fd, frees exactly that client's subscription strings, and
leaves every other entry in place. -/
theorem ipc_disconnect_append (pre post : List ipc_client)
    (dead : ipc_client) (fd : Nat)
    (hpre : ∀ c ∈ pre, c.fd ≠ fd) (hdead : dead.fd = fd) :
    ipc_disconnect (pre ++ dead :: post) fd = (pre ++ post, dead.events) := by
  induction pre with
  | nil => simp [ipc_disconnect, hdead]
  | cons a rest ih =>
    have ha : (a.fd == fd) = false := by
      simp only [beq_eq_false_iff_ne, ne_eq]
      exact hpre a (List.mem_cons_self a rest)
    simp only [List.cons_append, ipc_disconnect, ha, Bool.false_eq_true,
      if_false, List.append_eq]
    rw [ih fun c hc => hpre c (List.mem_cons_of_mem a hc)]

/-- `ipc_shutdown` always drains the registry completely, closing each
client in order, freeing none of the subscription strings and sending no
message. -/
theorem ipc_shutdown_spec (reg : List ipc_client) :
    ipc_shutdown reg = ([], reg.map (fun c => ⟨c.fd, []⟩), []) := by
  induction reg with
  | nil => rfl
  | cons a rest ih => simp [ipc_shutdown, ih]

/-- Bar-config lookup yields `none` exactly when no stored configuration id
equals the requested id. -/
theorem findBarconfig_eq_none (configs : List Barconfig) (bar_id : String)
    (h : ∀ cfg ∈ configs, cfg.id ≠ bar_id) :
    findBarconfig configs bar_id = none := by
  induction configs with
  | nil => rfl
  | cons a rest ih =>
    have ha : (a.id == bar_id) = false := by
      simp only [beq_eq_false_iff_ne, ne_eq]
      exact h a (List.mem_cons_self a rest)
    simp only [findBarconfig, ha, Bool.false_eq_true, if_false]
    exact ih fun c hc => h c (List.mem_cons_of_mem a hc)

/-- Claim C2: a SUBSCRIBE request appends each parsed JSON string token
verbatim to the requesting client's subscription list — one element per
token, no deduplication — replies `{"success":false}` on parse failure
keeping the already-appended names, replies `{"success":true}` on full
success, and leaves every other client's registry entry and subscription
list unchanged. -/
theorem claim_C2_subscribe_append (pre post : List ipc_client)
    (cl : ipc_client) (fd : Nat) (tr : ParseTrace)
    (hpre : ∀ c ∈ pre, c.fd ≠ fd) (hcl : cl.fd = fd) :
    handle_subscribe (pre ++ cl :: post) fd tr =
      (pre ++ { cl with events := cl.events ++ tr.strings } :: post,
       [⟨fd, I3_IPC_REPLY_TYPE_SUBSCRIBE,
         if tr.ok then replySuccessTrue else replySuccessFalse⟩]) ∧
    (cl.events ++ tr.strings).length =
      cl.events.length + tr.strings.length := by
  refine ⟨?_, List.length_append _ _⟩
  simp only [handle_subscribe, findClient_append pre post cl fd hpre hcl,
    appendSubscriptions_append pre post cl fd tr.strings hpre hcl]

/-- Claim C2 witness: a malformed payload whose parse produced two string
tokens before failing leaves them appended on client 2, replies
`{"success":false}`, and touches no other client. -/
theorem claim_C2_witness :
    handle_subscribe [⟨1, ["a"]⟩, ⟨2, ["workspace"]⟩, ⟨3, []⟩] 2
        ⟨["output", "output"], false⟩ =
      ([⟨1, ["a"]⟩, ⟨2, ["workspace", "output", "output"]⟩, ⟨3, []⟩],
       [⟨2, I3_IPC_REPLY_TYPE_SUBSCRIBE, replySuccessFalse⟩]) ∧
    ((["workspace"] : List String) ++ ["output", "output"]).length =
      (["workspace"] : List String).length +
        (["output", "output"] : List String).length :=
  claim_C2_subscribe_append [⟨1, ["a"]⟩] [⟨3, []⟩] ⟨2, ["workspace"]⟩ 2
    ⟨["output", "output"], false⟩ (by decide) rfl

/-- Claim C9: `handle_subscribe` accepts any well-formed JSON payload, not
only arrays of strings — it appends a subscription for every JSON string
value anywhere in the document (a bare top-level string subscribes to that
one name) and replies `{"success":true}`; a well-formed payload with no
string values, such as the empty array, also replies `{"success":true}` and
leaves the subscription list unchanged. -/
theorem claim_C9_subscribe_any_json (pre post : List ipc_client)
    (cl : ipc_client) (fd : Nat) (j : Json) (s : String)
    (hpre : ∀ c ∈ pre, c.fd ≠ fd) (hcl : cl.fd = fd) :
    handle_subscribe (pre ++ cl :: post) fd (traceOfJson j) =
      (pre ++ { cl with events := cl.events ++ jsonStrings j } :: post,
       [⟨fd, I3_IPC_REPLY_TYPE_SUBSCRIBE, replySuccessTrue⟩]) ∧
    jsonStrings (.str s) = [s] ∧
    handle_subscribe (pre ++ cl :: post) fd (traceOfJson (.arr [])) =
      (pre ++ cl :: post,
       [⟨fd, I3_IPC_REPLY_TYPE_SUBSCRIBE, replySuccessTrue⟩]) := by
  refine ⟨?_, rfl, ?_⟩
  · simp only [handle_subscribe, traceOfJson,
      findClient_append pre post cl fd hpre hcl,
      appendSubscriptions_append pre post cl fd (jsonStrings j) hpre hcl]
    simp
  · simp only [handle_subscribe, traceOfJson,
      findClient_append pre post cl fd hpre hcl,
      appendSubscriptions_append pre post cl fd
        (jsonStrings (.arr [])) hpre hcl]
    simp [jsonStrings, jsonStringsArr]

/-- Claim C9 witness: a payload that is a bare JSON string and one that is
an object with a nested string value both subscribe client 2, and the empty
array leaves it unchanged; every reply is `{"success":true}`. -/
theorem claim_C9_witness :
    handle_subscribe [⟨1, []⟩, ⟨2, ["mode"]⟩] 2
        (traceOfJson (.obj [("k", .arr [.num 3, .str "workspace"])])) =
      ([⟨1, []⟩, ⟨2, ["mode", "workspace"]⟩],
       [⟨2, I3_IPC_REPLY_TYPE_SUBSCRIBE, replySuccessTrue⟩]) ∧
    jsonStrings (.str "output") = ["output"] ∧
    handle_subscribe [⟨1, []⟩, ⟨2, ["mode"]⟩] 2 (traceOfJson (.arr [])) =
      ([⟨1, []⟩, ⟨2, ["mode"]⟩],
       [⟨2, I3_IPC_REPLY_TYPE_SUBSCRIBE, replySuccessTrue⟩]) :=
  claim_C9_subscribe_any_json [⟨1, []⟩] [] ⟨2, ["mode"]⟩ 2
    (.obj [("k", .arr [.num 3, .str "workspace"])]) "output"
    (by decide) rfl

/-- Claim C5: when a client connection hits read error or EOF, the teardown
in `ipc_receive_message` removes exactly that client's entry, freeing
exactly its subscription strings, while every other entry is untouched; a
subsequent publish of any event over the remaining registry is well-defined,
delivers to exactly the remaining subscribed clients, and changes nothing. -/
theorem claim_C5_disconnect_teardown (pre post : List ipc_client)
    (dead : ipc_client) (fd t : Nat) (event payload : String)
    (hpre : ∀ c ∈ pre, c.fd ≠ fd) (hdead : dead.fd = fd) :
    ipc_disconnect (pre ++ dead :: post) fd = (pre ++ post, dead.events) ∧
    (ipc_send_event (pre ++ post) t event payload).1 = pre ++ post ∧
    (ipc_send_event (pre ++ post) t event payload).2 =
      ((pre ++ post).filter (fun c => client_interested c.events event)).map
        (fun c => ⟨c.fd, t, payload⟩) :=
  ⟨ipc_disconnect_append pre post dead fd hpre hdead,
   ipc_send_event_fst _ t event payload,
   ipc_send_event_snd _ t event payload⟩

/-- Claim C5 witness: client 2 dies while subscribed to "workspace"; its
entry and only its entry disappears, its strings are the freed ones, and a
later publish of "workspace" still reaches clients 1 and 3. -/
theorem claim_C5_witness :
    ipc_disconnect
        [⟨1, ["workspace"]⟩, ⟨2, ["workspace", "mode"]⟩, ⟨3, ["workspace"]⟩]
        2 =
      ([⟨1, ["workspace"]⟩, ⟨3, ["workspace"]⟩], ["workspace", "mode"]) ∧
    (ipc_send_event [⟨1, ["workspace"]⟩, ⟨3, ["workspace"]⟩]
        7 "workspace" "q").1 = [⟨1, ["workspace"]⟩, ⟨3, ["workspace"]⟩] ∧
    (ipc_send_event [⟨1, ["workspace"]⟩, ⟨3, ["workspace"]⟩]
        7 "workspace" "q").2 =
      (([⟨1, ["workspace"]⟩, ⟨3, ["workspace"]⟩] : List ipc_client).filter
        (fun c => client_interested c.events "workspace")).map
        (fun c => ⟨c.fd, 7, "q"⟩) :=
  claim_C5_disconnect_teardown [⟨1, ["workspace"]⟩] [⟨3, ["workspace"]⟩]
    ⟨2, ["workspace", "mode"]⟩ 2 7 "workspace" "q" (by decide) rfl

/-- Claim C6 counterexample: at controlled shutdown the destruction of a
client subscribed to "workspace" frees none of its subscription strings —
the freed-string record is `[]`, not the owned `["workspace"]` — so the
claim that every destruction path, including `ipc_shutdown`, frees all
owned subscription strings is false. -/
theorem claim_C6_counterexample :
    (ipc_shutdown [⟨0, ["workspace"]⟩]).2.1.map
        (fun a => a.freedEventStrings) = [[]] ∧
    ([[]] : List (List String)) ≠ [["workspace"]] :=
  ⟨rfl, by decide⟩

/-- Claim C6 (amended): destroying a client on the read-error/EOF teardown
path frees all of its owned subscription strings and removes it from the
registry; at controlled shutdown `ipc_shutdown` force-closes and removes
every registered client, in order, without sending any message, leaving the
registry empty — but the shutdown path does not free the clients'
subscription strings. -/
theorem claim_C6_shutdown_drains (reg pre post : List ipc_client)
    (dead : ipc_client) (fd : Nat)
    (hpre : ∀ c ∈ pre, c.fd ≠ fd) (hdead : dead.fd = fd) :
    (ipc_shutdown reg).1 = [] ∧
    (ipc_shutdown reg).2.1.map (fun a => a.fd) = reg.map (fun c => c.fd) ∧
    (ipc_shutdown reg).2.2 = [] ∧
    (∀ a ∈ (ipc_shutdown reg).2.1, a.freedEventStrings = []) ∧
    ipc_disconnect (pre ++ dead :: post) fd = (pre ++ post, dead.events) := by
  rw [ipc_shutdown_spec]
  refine ⟨rfl, ?_, rfl, ?_, ipc_disconnect_append pre post dead fd hpre hdead⟩
  · rw [List.map_map]
    rfl
  · intro a ha
    rcases List.mem_map.mp ha with ⟨c, _, rfl⟩
    rfl

/-- Claim C6 witness (amended form): shutting down a registry of two
subscribed clients closes 0 then 1, sends nothing, empties the registry and
frees no subscription strings; the teardown path on a third registry does
free the dead client's strings. -/
theorem claim_C6_witness :
    (ipc_shutdown [⟨0, ["workspace"]⟩, ⟨1, ["Output"]⟩]).1 = [] ∧
    (ipc_shutdown [⟨0, ["workspace"]⟩, ⟨1, ["Output"]⟩]).2.1.map
        (fun a => a.fd) =
      ([⟨0, ["workspace"]⟩, ⟨1, ["Output"]⟩] : List ipc_client).map
        (fun c => c.fd) ∧
    (ipc_shutdown [⟨0, ["workspace"]⟩, ⟨1, ["Output"]⟩]).2.2 = [] ∧
    (∀ a ∈ (ipc_shutdown [⟨0, ["workspace"]⟩, ⟨1, ["Output"]⟩]).2.1,
      a.freedEventStrings = []) ∧
    ipc_disconnect [⟨5, ["mode"]⟩] 5 = ([], ["mode"]) :=
  claim_C6_shutdown_drains [⟨0, ["workspace"]⟩, ⟨1, ["Output"]⟩]
    [] [] ⟨5, ["mode"]⟩ 5 (by simp) rfl

/-- Claim C3: message type codes 0 through 7 dispatch to exactly
handle_command, handle_get_workspaces, handle_subscribe, handle_get_outputs,
handle_tree, handle_get_marks, handle_get_bar_config, handle_get_version in
that numeric order, and any type code at or beyond the table's size (>= 8)
selects no handler, sends no reply and leaves the registry unchanged. -/
theorem claim_C3_dispatch_table (reg : List ipc_client) (t : Nat)
    (h : 8 ≤ t) :
    dispatchMessage reg t = (reg, [], none) ∧
    handlers = [.handle_command, .handle_get_workspaces, .handle_subscribe,
      .handle_get_outputs, .handle_tree, .handle_get_marks,
      .handle_get_bar_config, .handle_get_version] ∧
    dispatchMessage reg 0 = (reg, [], some .handle_command) ∧
    dispatchMessage reg 1 = (reg, [], some .handle_get_workspaces) ∧
    dispatchMessage reg 2 = (reg, [], some .handle_subscribe) ∧
    dispatchMessage reg 3 = (reg, [], some .handle_get_outputs) ∧
    dispatchMessage reg 4 = (reg, [], some .handle_tree) ∧
    dispatchMessage reg 5 = (reg, [], some .handle_get_marks) ∧
    dispatchMessage reg 6 = (reg, [], some .handle_get_bar_config) ∧
    dispatchMessage reg 7 = (reg, [], some .handle_get_version) := by
  refine ⟨?_, rfl, rfl, rfl, rfl, rfl, rfl, rfl, rfl, rfl⟩
  have hlen : handlers.length ≤ t := by simpa [handlers] using h
  simp [dispatchMessage, hlen]

/-- Claim C3 witness: type code 8, the first beyond the table, is ignored on
a non-empty registry. -/
theorem claim_C3_witness :
    dispatchMessage [⟨4, ["x"]⟩] 8 = ([⟨4, ["x"]⟩], [], none) :=
  (claim_C3_dispatch_table [⟨4, ["x"]⟩] 8 (by decide)).1

/-- Claim C7: a GET_BAR_CONFIG request with an empty payload replies with a
JSON array holding the id of every known bar configuration, and a non-empty
payload naming an id with no matching configuration replies with a JSON
object whose `id` field is exactly JSON null. -/
theorem claim_C7_bar_config (configs : List Barconfig) (bar_id : String)
    (hne : bar_id ≠ "") (hmiss : ∀ cfg ∈ configs, cfg.id ≠ bar_id) :
    handle_get_bar_config configs "" =
      .arr (configs.map (fun c => .str c.id)) ∧
    handle_get_bar_config configs bar_id = .obj [("id", .null)] := by
  constructor
  · simp [handle_get_bar_config]
  · simp only [handle_get_bar_config, if_neg hne,
      findBarconfig_eq_none configs bar_id hmiss]

/-- Claim C7 witness: one known configuration "bar-0"; the empty payload
lists it, and the unknown id "bar-1" yields the `id: null` object. -/
theorem claim_C7_witness :
    handle_get_bar_config
        [⟨"bar-0", [], none, none, .M_DOCK, .S_HIDE, .M_MOD4, .P_TOP,
          none, none, false, false, false,
          ⟨none, none, none, none, none, none, none, none, none, none,
           none, none, none, none, none⟩⟩] "" =
      .arr [.str "bar-0"] ∧
    handle_get_bar_config
        [⟨"bar-0", [], none, none, .M_DOCK, .S_HIDE, .M_MOD4, .P_TOP,
          none, none, false, false, false,
          ⟨none, none, none, none, none, none, none, none, none, none,
           none, none, none, none, none⟩⟩] "bar-1" =
      .obj [("id", .null)] :=
  claim_C7_bar_config
    [⟨"bar-0", [], none, none, .M_DOCK, .S_HIDE, .M_MOD4, .P_TOP,
      none, none, false, false, false,
      ⟨none, none, none, none, none, none, none, none, none, none,
       none, none, none, none, none⟩⟩] "bar-1" (by decide) (by decide)

/-- Claim C8: in the GET_TREE serialization, every recognized layout value
maps to its fixed string token and the internal default layout value is
never serialized as any token — it is the assertion-failure case of
`dump_node` (modelled as `none`). -/
theorem claim_C8_layout_tokens :
    dump_node_layout .L_SPLITV = some "splitv" ∧
    dump_node_layout .L_SPLITH = some "splith" ∧
    dump_node_layout .L_STACKED = some "stacked" ∧
    dump_node_layout .L_TABBED = some "tabbed" ∧
    dump_node_layout .L_DOCKAREA = some "dockarea" ∧
    dump_node_layout .L_OUTPUT = some "output" ∧
    dump_node_layout .L_DEFAULT = none ∧
    ∀ token : String, dump_node_layout .L_DEFAULT ≠ some token := by
  refine ⟨rfl, rfl, rfl, rfl, rfl, rfl, rfl, ?_⟩
  intro token h
  simp [dump_node_layout] at h
